import Mathlib

/-!
Verification development for the jogata-backend repository.

The definitions below are a shallow embedding of the business logic in
`src/routes/packs.js`, `src/routes/marketplace.js` and
`src/services/authService.js`, over an explicit database state that mirrors
the Prisma schema (`prisma/migrations/001_init/migration.sql`).

Modelling conventions:
- JavaScript numbers that the code only ever uses as non-negative integers
  (prices, counts, ids, timestamps in milliseconds) are `Nat`; the request
  field `quantity`, which arrives as an arbitrary integer and is range
  checked by the validator, is `Int`.
- `Math.random()`-driven index selection is an oracle `pick : Nat → Nat`;
  the drawn index is `pick step % pool.length`, which ranges over exactly
  the indices `Math.floor(Math.random() * pool.length)` can produce.
- `prisma.$transaction(cb)` is a function `DBState → Except String DBState`:
  a thrown error is `Except.error`, and the caller keeps the pre-transaction
  state (Prisma rolls back every write of the callback).
- `userStyle.create` enforces the unique index
  `user_styles_userId_styleCardId_key` from the migration: it errors when a
  row with the same (userId, styleCardId) pair already exists.
-/

namespace Jogata

/-- Rarity enum of `style_cards.rarity` (`StyleRarity` in the migration). -/
inductive Rarity where
  | COMMON
  | RARE
  | LEGENDARY
  | MYTHIC
  deriving DecidableEq, Repr

/-- String form of a rarity, used in the allocator's error message
(`No ${rarity} cards available`). -/
def rarityName : Rarity → String
  | .COMMON => "COMMON"
  | .RARE => "RARE"
  | .LEGENDARY => "LEGENDARY"
  | .MYTHIC => "MYTHIC"

/-- A `style_cards` row, restricted to the fields the purchase logic reads. -/
structure StyleCard where
  id : Nat
  rarity : Rarity
  name : String
  deriving DecidableEq, Repr

/-- A `transactions` row, restricted to the fields the routes write. -/
structure TxRecord where
  userId : Nat
  txType : String
  amount : Nat
  description : String
  status : String
  deriving DecidableEq, Repr

/-- A `user_styles` row (the ownership ledger). New rows start with the
migration defaults `totalPoints = weeklyPoints = activationCount = 0`. -/
structure UserStyle where
  userId : Nat
  styleCardId : Nat
  totalPoints : Nat
  weeklyPoints : Nat
  activationCount : Nat
  deriving DecidableEq, Repr

/-- Status enum of `marketplace_listings.status` (`ListingStatus`). -/
inductive ListingStatus where
  | ACTIVE
  | SOLD
  | CANCELLED
  | EXPIRED
  deriving DecidableEq, Repr

/-- A `marketplace_listings` row joined with its card's name (the route
always loads `include: styleCard` and reads `styleCard.name`).
`expiresAt` and `soldAt` are millisecond timestamps, nullable as in the
migration. -/
structure Listing where
  id : Nat
  sellerId : Nat
  buyerId : Option Nat
  styleCardId : Nat
  styleCardName : String
  price : Nat
  status : ListingStatus
  expiresAt : Option Nat
  soldAt : Option Nat
  deriving DecidableEq, Repr

/-- The database state the purchase flows read and write: `transactions`,
`user_styles`, `user_profiles` (projected to `(userId, packsPurchased)`),
and `marketplace_listings`. Most recently created transaction first. -/
structure DBState where
  transactions : List TxRecord
  userStyles : List UserStyle
  profiles : List (Nat × Nat)
  listings : List Listing
  deriving DecidableEq, Repr

/-- Route outcome: HTTP status class plus the error code / message the
handler responds with. -/
inductive HttpResult where
  | ok200
  | badRequest (code : String)
  | notFound (code : String)
  | serverError (msg : String)
  deriving DecidableEq, Repr

/-! ## Performance Scorer (`authService.js`, `analyzePlayerPerformance`) -/

/-- One player's per-match statistical line, the fields
`analyzePlayerPerformance` reads from `player.statistics[0]`. -/
structure PlayerMatchStats where
  goalsTotal : Nat
  goalsAssists : Nat
  passesAccuracy : Nat
  passesKey : Nat
  dribblesSuccess : Nat
  tacklesTotal : Nat
  tacklesInterceptions : Nat
  deriving DecidableEq, Repr

/-- A style activation produced by the scorer. Confidence is the exact
rational value of the literal the code pushes (0.9, 0.7, 0.8, 0.85). -/
structure Activation where
  styleName : String
  points : Nat
  confidence : ℚ
  deriving DecidableEq, Repr

/-- `analyzePlayerPerformance` from `src/services/authService.js`
lines 219-271: the four independent activation rules, evaluated in source
order, each appending at most one activation. -/
def analyzePlayerPerformance (stats : PlayerMatchStats) : List Activation :=
  let a1 : List Activation :=
    if stats.goalsTotal > 0 then
      [⟨"Clinical Finisher", stats.goalsTotal * 10, 9/10⟩] else []
  let a2 : List Activation :=
    if stats.passesAccuracy > 85 ∧ stats.dribblesSuccess > 3 then
      [⟨"Speedster", 5, 7/10⟩] else []
  let defensiveActions := stats.tacklesTotal + stats.tacklesInterceptions
  let a3 : List Activation :=
    if defensiveActions > 5 then
      [⟨"Ball Winner", defensiveActions * 2, 8/10⟩] else []
  let a4 : List Activation :=
    if stats.goalsAssists > 0 ∨ stats.passesKey > 3 then
      [⟨"Playmaker", stats.goalsAssists * 8 + stats.passesKey * 2, 85/100⟩]
    else []
  a1 ++ a2 ++ a3 ++ a4

end Jogata

namespace Jogata

/-! ## Pack catalog (`packs.js`, `PACK_TYPES`) -/

/-- One entry of `PACK_TYPES`: name, price in cents, total card count, and
the rarity distribution in the object's insertion (= iteration) order. -/
structure PackConfig where
  name : String
  price : Nat
  cards : Nat
  rarityDistribution : List (Rarity × Nat)
  deriving DecidableEq, Repr

/-- `PACK_TYPES.STARTER`. -/
def STARTER : PackConfig :=
  { name := "Starter Pack", price := 999, cards := 5,
    rarityDistribution :=
      [(.COMMON, 5), (.RARE, 0), (.LEGENDARY, 0), (.MYTHIC, 0)] }

/-- `PACK_TYPES.PREMIUM`. -/
def PREMIUM : PackConfig :=
  { name := "Premium Pack", price := 2499, cards := 5,
    rarityDistribution :=
      [(.COMMON, 2), (.RARE, 3), (.LEGENDARY, 0), (.MYTHIC, 0)] }

/-- `PACK_TYPES.EVOLUTION`. -/
def EVOLUTION : PackConfig :=
  { name := "Evolution Pack", price := 4999, cards := 3,
    rarityDistribution :=
      [(.COMMON, 0), (.RARE, 2), (.LEGENDARY, 1), (.MYTHIC, 0)] }

/-- `PACK_TYPES.GENESIS`. -/
def GENESIS : PackConfig :=
  { name := "Genesis Pack", price := 9999, cards := 2,
    rarityDistribution :=
      [(.COMMON, 0), (.RARE, 0), (.LEGENDARY, 1), (.MYTHIC, 1)] }

/-- The `PACK_TYPES` object as a key/value list in insertion order. -/
def packTypesList : List (String × PackConfig) :=
  [("STARTER", STARTER), ("PREMIUM", PREMIUM),
   ("EVOLUTION", EVOLUTION), ("GENESIS", GENESIS)]

/-- `Object.keys(PACK_TYPES)`, the set the `packType` validator accepts. -/
def packTypeKeys : List String := packTypesList.map (·.1)

/-- `PACK_TYPES[packType]` lookup. -/
def lookupPackType (key : String) : Option PackConfig :=
  (packTypesList.find? (fun kv => kv.1 = key)).map (·.2)

/-- Total of a rarity distribution's bucket counts. -/
def sumDist (dist : List (Rarity × Nat)) : Nat :=
  (dist.map (·.2)).sum

/-! ## Pack Allocator (`packs.js`, `generatePackCards`) -/

/-- The inner draw loop of `generatePackCards`: `count` picks, with
replacement, from `available`. `pick (used + i)` stands for the i-th
`Math.random()` call of this bucket; `% available.length` maps it to a
valid index, exactly the range `Math.floor(Math.random() * length)`
produces. Only called with `available ≠ []`, so the `getD` default is
never used. -/
def drawCards (available : List StyleCard) (count : Nat) (pick : Nat → Nat)
    (used : Nat) : List StyleCard :=
  (List.range count).map
    (fun i => available.getD (pick (used + i) % available.length)
      ⟨0, Rarity.COMMON, ""⟩)

/-- The bucket loop of `generatePackCards`, over the remaining entries of
`packConfig.rarityDistribution` (`Object.entries` iteration order), with
`used` random draws consumed so far. A bucket with `count === 0` is
skipped with `continue`; an empty pool for a drawn bucket throws. -/
def generatePackCardsAux (pool : Rarity → List StyleCard) (pick : Nat → Nat) :
    List (Rarity × Nat) → Nat → Except String (List StyleCard)
  | [], _ => .ok []
  | (rarity, count) :: rest, used =>
    if count = 0 then generatePackCardsAux pool pick rest used
    else
      let available := pool rarity
      if available.length = 0 then
        .error ("No " ++ rarityName rarity ++ " cards available")
      else
        match generatePackCardsAux pool pick rest (used + count) with
        | .ok cards => .ok (drawCards available count pick used ++ cards)
        | .error e => .error e

/-- `generatePackCards(packConfig, tx)` from `packs.js` lines 253-276.
`pool r` is the result of `tx.styleCard.findMany({ where: { rarity: r } })`. -/
def generatePackCards (packConfig : PackConfig)
    (pool : Rarity → List StyleCard) (pick : Nat → Nat) :
    Except String (List StyleCard) :=
  generatePackCardsAux pool pick packConfig.rarityDistribution 0

/-! ## Database primitives -/

/-- `tx.transaction.create`: prepends the new `transactions` row. -/
def transactionCreate (db : DBState) (rec : TxRecord) : DBState :=
  { db with transactions := rec :: db.transactions }

/-- `tx.userStyle.create({ data: { userId, styleCardId } })`: the unique
index `user_styles_userId_styleCardId_key` makes the insert fail when the
pair already exists; otherwise the new row is appended with the column
defaults. -/
def userStyleCreate (db : DBState) (userId styleCardId : Nat) :
    Except String DBState :=
  if db.userStyles.any
      (fun r => r.userId = userId ∧ r.styleCardId = styleCardId) then
    .error "Unique index violation on user_styles (userId, styleCardId)"
  else
    .ok { db with userStyles :=
            db.userStyles ++ [⟨userId, styleCardId, 0, 0, 0⟩] }

/-- The `Promise.all(allCards.map(card => tx.userStyle.create(...)))` step:
one create per drawn card; the first unique-index violation fails the
whole transaction. -/
def createUserStyles (userId : Nat) :
    DBState → List StyleCard → Except String DBState
  | db, [] => .ok db
  | db, c :: rest =>
    match userStyleCreate db userId c.id with
    | .error e => .error e
    | .ok db2 => createUserStyles userId db2 rest

/-- `tx.userProfile.update({ where: { userId }, data: { packsPurchased:
{ increment: quantity } } })`: errors when no profile row exists (Prisma's
record-not-found), otherwise increments the matching row. -/
def userProfileUpdatePacks (db : DBState) (userId quantity : Nat) :
    Except String DBState :=
  if db.profiles.any (fun p => p.1 = userId) then
    let updated :=
      db.profiles.map
        (fun p => if p.1 = userId then (p.1, p.2 + quantity) else p)
    .ok { db with profiles := updated }
  else .error "Record to update not found (user_profiles)"

/-- The `packsPurchased` counter a read of `user_profiles` would return
for `userId` (0 when the profile row is absent). -/
def packsPurchasedOf (db : DBState) (userId : Nat) : Nat :=
  match db.profiles.find? (fun p => p.1 = userId) with
  | some p => p.2
  | none => 0

/-! ## Pack purchase route (`packs.js`, `POST /purchase`) -/

/-- The `for (let i = 0; i < quantity; i++)` loop generating the packs:
pack `i` uses its own slice `pick i` of the randomness oracle, and the
generated cards are concatenated into `allCards` in pack order. -/
def generateAllPacks (cfg : PackConfig) (pool : Rarity → List StyleCard)
    (pick : Nat → Nat → Nat) : Nat → Nat → Except String (List StyleCard)
  | _, 0 => .ok []
  | i, n + 1 =>
    match generatePackCards cfg pool (pick i) with
    | .error e => .error e
    | .ok packCards =>
      match generateAllPacks cfg pool pick (i + 1) n with
      | .error e => .error e
      | .ok restCards => .ok (packCards ++ restCards)

/-- The `prisma.$transaction` callback of `POST /packs/purchase`
(`packs.js` lines 95-143): create the PACK_PURCHASE transaction record
with `amount = price * quantity`, generate `quantity` packs, create one
`user_styles` row per drawn card, increment `packsPurchased`. -/
def purchaseTx (userId : Nat) (cfg : PackConfig) (quantity : Nat)
    (pool : Rarity → List StyleCard) (pick : Nat → Nat → Nat)
    (db : DBState) : Except String DBState :=
  let db1 := transactionCreate db
    ⟨userId, "PACK_PURCHASE", cfg.price * quantity,
     toString quantity ++ "x " ++ cfg.name, "COMPLETED"⟩
  match generateAllPacks cfg pool pick 0 quantity with
  | .error e => .error e
  | .ok allCards =>
    match createUserStyles userId db1 allCards with
    | .error e => .error e
    | .ok db2 => userProfileUpdatePacks db2 userId quantity

/-- `POST /packs/purchase` (`packs.js` lines 77-160): the
express-validator guards `packType isIn Object.keys(PACK_TYPES)` and
`quantity isInt { min: 1, max: 10 }` return 400 with no state change; a
passed validation runs the transaction, whose thrown error reaches
`next(error)` (500) with every write rolled back. -/
def postPackPurchase (userId : Nat) (packType : String) (quantity : Int)
    (pool : Rarity → List StyleCard) (pick : Nat → Nat → Nat)
    (db : DBState) : HttpResult × DBState :=
  if packType ∈ packTypeKeys ∧ 1 ≤ quantity ∧ quantity ≤ 10 then
    match lookupPackType packType with
    | some cfg =>
      match purchaseTx userId cfg quantity.toNat pool pick db with
      | .ok db2 => (.ok200, db2)
      | .error e => (.serverError e, db)
    | none => (.badRequest "Validation failed", db)
  else (.badRequest "Validation failed", db)

/-! ## Marketplace routes (`marketplace.js`) -/

/-- `prisma.marketplaceListing.findUnique({ where: { id } })`. -/
def findListing (db : DBState) (id : Nat) : Option Listing :=
  db.listings.find? (fun l => l.id = id)

/-- The status of listing `id` as stored (`none` when no such row). -/
def statusOf (db : DBState) (id : Nat) : Option ListingStatus :=
  (findListing db id).map (·.status)

/-- `marketplaceListing.update({ where: { id }, data })`: rewrite the
rows with this id through `f`. -/
def updateListing (db : DBState) (id : Nat) (f : Listing → Listing) :
    DBState :=
  { db with listings :=
      db.listings.map (fun l => if l.id = id then f l else l) }

/-- The `prisma.$transaction` callback of `POST /listings/:id/purchase`
(`marketplace.js` lines 242-301): mark SOLD with buyer and timestamp,
create the buyer's MARKETPLACE_BUY row at full price, create the seller's
MARKETPLACE_SELL row at `Math.floor(price * 0.95)` — which equals
`price * 95 / 100` in integers for every representable integer price, the
floating-point product never crossing an integer boundary — then create
the buyer's ownership row (unique index!) and delete the seller's rows
for this card. -/
def purchaseListingTx (buyerId : Nat) (l : Listing) (now : Nat)
    (db : DBState) : Except String DBState :=
  let db1 := updateListing db l.id
    (fun x => { x with status := .SOLD, buyerId := some buyerId,
                       soldAt := some now })
  let db2 := transactionCreate db1
    ⟨buyerId, "MARKETPLACE_BUY", l.price,
     "Purchased " ++ l.styleCardName, "COMPLETED"⟩
  let db3 := transactionCreate db2
    ⟨l.sellerId, "MARKETPLACE_SELL", l.price * 95 / 100,
     "Sold " ++ l.styleCardName, "COMPLETED"⟩
  match userStyleCreate db3 buyerId l.styleCardId with
  | .error e => .error e
  | .ok db4 =>
    let remaining := db4.userStyles.filter
      (fun r => ¬(r.userId = l.sellerId ∧ r.styleCardId = l.styleCardId))
    .ok { db4 with userStyles := remaining }

/-- `listing.expiresAt && listing.expiresAt < new Date()`. -/
def listingExpired (l : Listing) (now : Nat) : Bool :=
  match l.expiresAt with
  | some e => e < now
  | none => false

/-- `POST /marketplace/listings/:id/purchase` (`marketplace.js` lines
190-314): 404 when absent; 400 LISTING_INACTIVE when not ACTIVE; 400
SELF_PURCHASE when the buyer is the seller; past expiry, persist the
EXPIRED status (outside any transaction) and reject 400 LISTING_EXPIRED;
otherwise run the purchase transaction, a thrown error reaching
`next(error)` with the transaction rolled back. -/
def postListingPurchase (buyerId listingId now : Nat) (db : DBState) :
    HttpResult × DBState :=
  match findListing db listingId with
  | none => (.notFound "LISTING_NOT_FOUND", db)
  | some l =>
    if l.status ≠ .ACTIVE then (.badRequest "LISTING_INACTIVE", db)
    else if l.sellerId = buyerId then (.badRequest "SELF_PURCHASE", db)
    else if listingExpired l now then
      (.badRequest "LISTING_EXPIRED",
       updateListing db listingId (fun x => { x with status := .EXPIRED }))
    else
      match purchaseListingTx buyerId l now db with
      | .ok db2 => (.ok200, db2)
      | .error e => (.serverError e, db)

/-- `DELETE /marketplace/listings/:id` (`marketplace.js` lines 317-350):
`findFirst` on (id, sellerId, status ACTIVE); 404 when absent, else set
status CANCELLED. -/
def deleteListingRoute (userId listingId : Nat) (db : DBState) :
    HttpResult × DBState :=
  match db.listings.find?
      (fun l => l.id = listingId ∧ l.sellerId = userId ∧
                l.status = .ACTIVE) with
  | none => (.notFound "LISTING_NOT_FOUND", db)
  | some _ =>
    (.ok200,
     updateListing db listingId (fun x => { x with status := .CANCELLED }))

/-- `GET /marketplace/listings` (`marketplace.js` lines 15-100): a pure
read — `findMany` filtered on `status: 'ACTIVE'` — returning the matching
rows and writing nothing. Query-string filters, sorting and pagination
only narrow the returned page and are elided; no branch of the handler
performs a write, in particular no expiry check is made. -/
def getListings (db : DBState) : List Listing × DBState :=
  (db.listings.filter (fun l => l.status = .ACTIVE), db)

/-! ## Property definitions -/

/-- The allocator output shape stated by the spec: the card list is the
concatenation, in distribution order, of one block per rarity bucket, the
block having the bucket's count and drawing only from that rarity's pool. -/
def GroupedBy (pool : Rarity → List StyleCard) :
    List (Rarity × Nat) → List StyleCard → Prop
  | [], l => l = []
  | (r, c) :: rest, l =>
    ∃ l1 l2, l = l1 ++ l2 ∧ l1.length = c ∧ (∀ x ∈ l1, x ∈ pool r) ∧
      GroupedBy pool rest l2

/-- At most one ownership row per (user, card) pair — the invariant the
unique index `user_styles_userId_styleCardId_key` maintains. -/
def UniquePairs (rows : List UserStyle) : Prop :=
  rows.Pairwise (fun a b => ¬(a.userId = b.userId ∧ a.styleCardId = b.styleCardId))

/-- The listing state machine: a status either stays put or moves from
ACTIVE to one of the three terminal states. -/
def allowedTransition (s t : Option ListingStatus) : Prop :=
  t = s ∨ (s = some .ACTIVE ∧
    (t = some .SOLD ∨ t = some .CANCELLED ∨ t = some .EXPIRED))

/-- Distinct `marketplace_listings.id` values — the table's primary key
constraint. -/
def UniqueListingIds (db : DBState) : Prop :=
  db.listings.Pairwise (fun a b => a.id ≠ b.id)

/-! ## Concrete instances used by witnesses and counterexamples -/

/-- A catalog with five distinct COMMON cards and nothing else. -/
def pool5 : Rarity → List StyleCard
  | .COMMON => [⟨1, .COMMON, "a"⟩, ⟨2, .COMMON, "b"⟩, ⟨3, .COMMON, "c"⟩,
                ⟨4, .COMMON, "d"⟩, ⟨5, .COMMON, "e"⟩]
  | _ => []

/-- A catalog whose RARE pool is empty but whose COMMON pool is not. -/
def poolNoRare : Rarity → List StyleCard
  | .COMMON => [⟨1, .COMMON, "a"⟩]
  | _ => []

/-- A catalog holding only the single COMMON card with id 7. -/
def poolOnly7 : Rarity → List StyleCard
  | .COMMON => [⟨7, .COMMON, "g"⟩]
  | _ => []

/-- Identity randomness oracle: pack `i`, draw `k` picks raw index `k`. -/
def pickId : Nat → Nat → Nat := fun _ k => k

/-- Constant-zero randomness oracle. -/
def pickZero : Nat → Nat → Nat := fun _ _ => 0

/-- Fresh database with one profile row for user 1. -/
def dbW : DBState := ⟨[], [], [(1, 0)], []⟩

/-- Database where user 1 already owns card 7 with nonzero counters. -/
def dbC4 : DBState := ⟨[], [⟨1, 7, 3, 1, 1⟩], [(1, 0)], []⟩

/-- Listing 1: seller 2 offers card 7 at price 1000, ACTIVE, expiring at
time 100. -/
def listing1 : Listing :=
  ⟨1, 2, none, 7, "card7", 1000, .ACTIVE, some 100, none⟩

/-- Marketplace database: seller 2 owns card 7 (with point history) and
lists it as `listing1`; buyer 3 owns nothing. -/
def dbM : DBState :=
  ⟨[], [⟨2, 7, 3, 1, 1⟩], [(1, 0), (2, 0)], [listing1]⟩

/-- Like `dbM` but buyer 3 already owns a row for card 7. -/
def dbMdup : DBState :=
  ⟨[], [⟨2, 7, 3, 1, 1⟩, ⟨3, 7, 0, 0, 0⟩], [(1, 0), (2, 0)], [listing1]⟩

/-- Database holding one ACTIVE listing whose `expiresAt` (5) is long
past. -/
def dbRead : DBState :=
  ⟨[], [], [], [⟨1, 2, none, 7, "card7", 1000, .ACTIVE, some 5, none⟩]⟩

end Jogata

namespace Jogata

/-! ## Theorems -/

/-- Claim C8: on the statistical line with 2 goals, 1 assist, 90% pass
accuracy, 2 key passes, 4 successful dribbles, 0 tackles and 0
interceptions, the Performance Scorer returns exactly the three
activations Clinical Finisher (20 points, confidence 0.9), Speedster
(5 points, confidence 0.7) and Playmaker (12 points, confidence 0.85),
in that order, and in particular no Ball Winner activation. -/
theorem scorer_example_statline :
    analyzePlayerPerformance ⟨2, 1, 90, 2, 4, 0, 0⟩ =
      [⟨"Clinical Finisher", 20, 9/10⟩, ⟨"Speedster", 5, 7/10⟩,
       ⟨"Playmaker", 12, 85/100⟩] := by
  rfl

/-- Claim C10: `POST /packs/purchase` answers 400 (validation failure)
and leaves the database untouched whenever `packType` is not one of the
four defined keys or `quantity` lies outside 1..10 — in particular every
quantity above 10 is rejected. -/
theorem pack_purchase_rejects_invalid (userId : Nat) (packType : String)
    (quantity : Int) (pool : Rarity → List StyleCard)
    (pick : Nat → Nat → Nat) (db : DBState)
    (h : packType ∉ packTypeKeys ∨ quantity < 1 ∨ 10 < quantity) :
    postPackPurchase userId packType quantity pool pick db =
      (.badRequest "Validation failed", db) := by
  unfold postPackPurchase
  rw [if_neg]
  rintro ⟨hmem, h1, h10⟩
  rcases h with h | h | h
  · exact h hmem
  · omega
  · omega

/-- Witness for C10: quantity 11 with the valid key STARTER satisfies the
spec's precondition `quantity ≥ 1` yet is rejected with 400 and no state
change. -/
theorem pack_purchase_rejects_invalid_witness :
    (("STARTER" : String) ∉ packTypeKeys ∨ (11 : Int) < 1 ∨ 10 < (11 : Int)) ∧
    postPackPurchase 1 "STARTER" 11 poolOnly7 pickZero dbW =
      (.badRequest "Validation failed", dbW) :=
  ⟨by decide,
   pack_purchase_rejects_invalid 1 "STARTER" 11 poolOnly7 pickZero dbW
     (by decide)⟩

end Jogata

namespace Jogata

/-- Each draw of `drawCards` on a non-empty pool is a member of the pool. -/
theorem drawCards_mem {available : List StyleCard} (h : available ≠ [])
    (count : Nat) (pick : Nat → Nat) (used : Nat) :
    ∀ x ∈ drawCards available count pick used, x ∈ available := by
  intro x hx
  simp only [drawCards, List.mem_map, List.mem_range] at hx
  obtain ⟨i, _, rfl⟩ := hx
  have hlen : 0 < available.length := List.length_pos.mpr h
  have hmod : pick (used + i) % available.length < available.length :=
    Nat.mod_lt _ hlen
  rw [List.getD_eq_getElem _ _ hmod]
  exact List.getElem_mem _

/-- `drawCards` yields exactly `count` cards. -/
theorem drawCards_length (available : List StyleCard) (count : Nat)
    (pick : Nat → Nat) (used : Nat) :
    (drawCards available count pick used).length = count := by
  simp [drawCards]

/-- Whenever the bucket loop returns `ok`, it returns exactly the
distribution's total number of cards. -/
theorem generatePackCardsAux_length (pool : Rarity → List StyleCard)
    (pick : Nat → Nat) :
    ∀ (dist : List (Rarity × Nat)) (used : Nat) (l : List StyleCard),
      generatePackCardsAux pool pick dist used = .ok l →
      l.length = sumDist dist := by
  intro dist
  induction dist with
  | nil =>
    intro used l h
    simp only [generatePackCardsAux] at h
    cases h
    rfl
  | cons rc rest ih =>
    intro used l h
    obtain ⟨r, c⟩ := rc
    simp only [generatePackCardsAux] at h
    by_cases hc : c = 0
    · subst hc
      simp only [if_pos rfl] at h
      have := ih used l h
      simpa [sumDist] using this
    · rw [if_neg hc] at h
      by_cases hlen : (pool r).length = 0
      · rw [if_pos hlen] at h
        cases h
      · rw [if_neg hlen] at h
        cases hrec : generatePackCardsAux pool pick rest (used + c) with
        | ok l2 =>
          rw [hrec] at h
          cases h
          have := ih (used + c) l2 hrec
          simp [drawCards_length, this, sumDist]
        | error e =>
          rw [hrec] at h
          cases h

/-- When every bucket with a nonzero count has a non-empty pool, the
bucket loop succeeds with the full, rarity-grouped card list. -/
theorem generatePackCardsAux_ok (pool : Rarity → List StyleCard)
    (pick : Nat → Nat) :
    ∀ (dist : List (Rarity × Nat)) (used : Nat),
      (∀ rc ∈ dist, rc.2 ≠ 0 → pool rc.1 ≠ []) →
      ∃ l, generatePackCardsAux pool pick dist used = .ok l ∧
        l.length = sumDist dist ∧ GroupedBy pool dist l := by
  intro dist
  induction dist with
  | nil =>
    intro used _
    exact ⟨[], rfl, rfl, rfl⟩
  | cons rc rest ih =>
    intro used h
    obtain ⟨r, c⟩ := rc
    by_cases hc : c = 0
    · subst hc
      obtain ⟨l, hl, hlen, hg⟩ :=
        ih used (fun x hx => h x (List.mem_cons_of_mem _ hx))
      refine ⟨l, ?_, ?_, ?_⟩
      · simpa [generatePackCardsAux] using hl
      · simpa [sumDist] using hlen
      · exact ⟨[], l, by simp, rfl, by simp, hg⟩
    · have hpool : pool r ≠ [] := h (r, c) (List.mem_cons_self _ _) hc
      have hlen0 : ¬((pool r).length = 0) := by
        simpa [List.length_eq_zero] using hpool
      obtain ⟨l, hl, hlen, hg⟩ :=
        ih (used + c) (fun x hx => h x (List.mem_cons_of_mem _ hx))
      refine ⟨drawCards (pool r) c pick used ++ l, ?_, ?_, ?_⟩
      · simp only [generatePackCardsAux, if_neg hc, if_neg hlen0, hl]
      · simp [drawCards_length, hlen, sumDist]
      · exact ⟨drawCards (pool r) c pick used, l, rfl,
          drawCards_length _ _ _ _, drawCards_mem hpool _ _ _, hg⟩

/-- When some bucket with a nonzero count has an empty pool, the bucket
loop throws, whatever the randomness. -/
theorem generatePackCardsAux_error (pool : Rarity → List StyleCard)
    (pick : Nat → Nat) :
    ∀ (dist : List (Rarity × Nat)) (used : Nat),
      (∃ rc ∈ dist, rc.2 ≠ 0 ∧ pool rc.1 = []) →
      ∃ e, generatePackCardsAux pool pick dist used = .error e := by
  intro dist
  induction dist with
  | nil =>
    intro used h
    obtain ⟨rc, hmem, _⟩ := h
    cases hmem
  | cons rc0 rest ih =>
    intro used h
    obtain ⟨r0, c0⟩ := rc0
    obtain ⟨rc, hmem, hc, hpool⟩ := h
    rcases List.mem_cons.mp hmem with hhead | htail
    · subst hhead
      simp only [generatePackCardsAux, if_neg hc]
      have hplen : (pool r0).length = 0 := by
        simpa using congrArg List.length hpool
      rw [if_pos hplen]
      exact ⟨_, rfl⟩
    · by_cases hc0 : c0 = 0
      · subst hc0
        obtain ⟨e, he⟩ := ih used ⟨rc, htail, hc, hpool⟩
        exact ⟨e, by simpa [generatePackCardsAux] using he⟩
      · simp only [generatePackCardsAux, if_neg hc0]
        by_cases hlen : (pool r0).length = 0
        · rw [if_pos hlen]
          exact ⟨_, rfl⟩
        · rw [if_neg hlen]
          obtain ⟨e, he⟩ := ih (used + c0) ⟨rc, htail, hc, hpool⟩
          rw [he]
          exact ⟨e, rfl⟩

/-- Every card of a rarity-grouped list comes from the pool of a bucket
with a nonzero count. -/
theorem GroupedBy_mem (pool : Rarity → List StyleCard) :
    ∀ (dist : List (Rarity × Nat)) (l : List StyleCard),
      GroupedBy pool dist l →
      ∀ x ∈ l, ∃ rc ∈ dist, rc.2 ≠ 0 ∧ x ∈ pool rc.1 := by
  intro dist
  induction dist with
  | nil =>
    intro l hg x hx
    cases hg
    cases hx
  | cons rc rest ih =>
    intro l hg x hx
    obtain ⟨r, c⟩ := rc
    obtain ⟨l1, l2, rfl, hlen, hmem, hg2⟩ := hg
    rcases List.mem_append.mp hx with h1 | h2
    · refine ⟨(r, c), List.mem_cons_self _ _, ?_, hmem x h1⟩
      intro hc
      subst hc
      rw [List.length_eq_zero] at hlen
      subst hlen
      cases h1
    · obtain ⟨rc', hrc', hne, hmem'⟩ := ih l2 hg2 x h2
      exact ⟨rc', List.mem_cons_of_mem _ hrc', hne, hmem'⟩

/-- A successful `PACK_TYPES` lookup returns one of the four configs and
certifies its key. -/
theorem lookupPackType_mem {key : String} {cfg : PackConfig}
    (h : lookupPackType key = some cfg) :
    cfg ∈ packTypesList.map (·.2) ∧ key ∈ packTypeKeys := by
  unfold lookupPackType at h
  cases hfind : packTypesList.find? (fun kv => kv.1 = key) with
  | none => rw [hfind] at h; cases h
  | some kv =>
    rw [hfind] at h
    cases h
    have hmem := List.mem_of_find?_eq_some hfind
    have hkey : kv.1 = key := by
      have := List.find?_some hfind
      simpa using this
    constructor
    · exact List.mem_map.mpr ⟨kv, hmem, rfl⟩
    · exact hkey ▸ List.mem_map.mpr ⟨kv, hmem, rfl⟩

/-- Each of the four defined pack types has a rarity distribution summing
to its card count. -/
theorem sum_eq_cards_of_packType :
    ∀ cfg ∈ packTypesList.map (·.2),
      sumDist cfg.rarityDistribution = cfg.cards := by
  decide

end Jogata

namespace Jogata

/-- Claim C2: each of the four defined pack types has a rarity
distribution summing to its card count, and whenever every nonzero
rarity bucket has a non-empty pool, `generatePackCards` returns exactly
`cards` cards, grouped rarity-by-rarity in the iteration order of the
distribution. -/
theorem pack_distribution_and_allocation (cfg : PackConfig)
    (pool : Rarity → List StyleCard) (pick : Nat → Nat)
    (hcfg : cfg ∈ packTypesList.map (·.2))
    (hpool : ∀ rc ∈ cfg.rarityDistribution, rc.2 ≠ 0 → pool rc.1 ≠ []) :
    sumDist cfg.rarityDistribution = cfg.cards ∧
    ∃ l, generatePackCards cfg pool pick = .ok l ∧
      l.length = cfg.cards ∧ GroupedBy pool cfg.rarityDistribution l := by
  have hsum := sum_eq_cards_of_packType cfg hcfg
  refine ⟨hsum, ?_⟩
  obtain ⟨l, hl, hlen, hg⟩ :=
    generatePackCardsAux_ok pool pick cfg.rarityDistribution 0 hpool
  exact ⟨l, hl, by rw [hlen, hsum], hg⟩

/-- Witness for C2: the STARTER pack over a five-card COMMON catalog
allocates exactly 5 cards, grouped by rarity. -/
theorem pack_distribution_and_allocation_witness :
    (STARTER ∈ packTypesList.map (·.2) ∧
     (∀ rc ∈ STARTER.rarityDistribution, rc.2 ≠ 0 → pool5 rc.1 ≠ [])) ∧
    (sumDist STARTER.rarityDistribution = STARTER.cards ∧
     ∃ l, generatePackCards STARTER pool5 (pickId 0) = .ok l ∧
       l.length = STARTER.cards ∧
       GroupedBy pool5 STARTER.rarityDistribution l) :=
  ⟨⟨by decide, by decide⟩,
   pack_distribution_and_allocation STARTER pool5 (pickId 0)
     (by decide) (by decide)⟩

end Jogata

namespace Jogata

/-- When the allocator throws for the given catalog, the first generated
pack already throws, and so does the whole multi-pack loop. -/
theorem generateAllPacks_error (cfg : PackConfig)
    (pool : Rarity → List StyleCard) (pick : Nat → Nat → Nat) (n : Nat)
    (e : String) (h : generatePackCards cfg pool (pick 0) = .error e) :
    generateAllPacks cfg pool pick 0 (n + 1) = .error e := by
  unfold generateAllPacks
  rw [h]

/-- A failing allocator fails the whole purchase transaction. -/
theorem purchaseTx_error (userId : Nat) (cfg : PackConfig) (q : Nat)
    (pool : Rarity → List StyleCard) (pick : Nat → Nat → Nat)
    (db : DBState) (e : String)
    (h : generateAllPacks cfg pool pick 0 q = .error e) :
    purchaseTx userId cfg q pool pick db = .error e := by
  unfold purchaseTx
  rw [h]

/-- Claim C3: a rarity bucket with a nonzero count and an empty pool makes
`generatePackCards` throw for every randomness, and the route answers 500
with the database exactly as before — no ownership rows, no transaction
record, no counter change.  A bucket with count 0 is skipped: with every
nonzero bucket's pool non-empty the allocator succeeds even when some
zero bucket's pool is empty, and every returned card comes from the pool
of a nonzero bucket, so a skipped rarity is never drawn from. -/
theorem pack_empty_pool_aborts (cfg : PackConfig)
    (pool : Rarity → List StyleCard) :
    ((∃ rc ∈ cfg.rarityDistribution, rc.2 ≠ 0 ∧ pool rc.1 = []) →
      (∀ pick, ∃ e, generatePackCards cfg pool pick = .error e) ∧
      (∀ (userId : Nat) (key : String) (q : Int)
         (pick : Nat → Nat → Nat) (db : DBState),
        lookupPackType key = some cfg → 1 ≤ q → q ≤ 10 →
        ∃ e, postPackPurchase userId key q pool pick db =
          (.serverError e, db))) ∧
    ((∀ rc ∈ cfg.rarityDistribution, rc.2 ≠ 0 → pool rc.1 ≠ []) →
      ∀ pick, ∃ l, generatePackCards cfg pool pick = .ok l ∧
        ∀ x ∈ l, ∃ rc ∈ cfg.rarityDistribution, rc.2 ≠ 0 ∧ x ∈ pool rc.1) := by
  constructor
  · intro hbad
    have hgen : ∀ pick : Nat → Nat, ∃ e,
        generatePackCards cfg pool pick = .error e := fun pick =>
      generatePackCardsAux_error pool pick cfg.rarityDistribution 0 hbad
    refine ⟨hgen, ?_⟩
    intro userId key q pick db hk hq1 hq10
    obtain ⟨e, he⟩ := hgen (pick 0)
    have hqnat : ∃ n, q.toNat = n + 1 := by
      refine ⟨q.toNat - 1, ?_⟩
      omega
    obtain ⟨n, hn⟩ := hqnat
    have hall : generateAllPacks cfg pool pick 0 q.toNat = .error e := by
      rw [hn]
      exact generateAllPacks_error cfg pool pick n e he
    have htx : purchaseTx userId cfg q.toNat pool pick db = .error e :=
      purchaseTx_error userId cfg q.toNat pool pick db e hall
    refine ⟨e, ?_⟩
    unfold postPackPurchase
    rw [if_pos ⟨(lookupPackType_mem hk).2, hq1, hq10⟩, hk]
    show (match purchaseTx userId cfg q.toNat pool pick db with
      | Except.ok db2 => (HttpResult.ok200, db2)
      | Except.error err => (HttpResult.serverError err, db)) =
      (HttpResult.serverError e, db)
    rw [htx]
  · intro hgood pick
    obtain ⟨l, hl, _, hg⟩ :=
      generatePackCardsAux_ok pool pick cfg.rarityDistribution 0 hgood
    exact ⟨l, hl, GroupedBy_mem pool cfg.rarityDistribution l hg⟩

/-- Witness for C3: the PREMIUM pack over a catalog with an empty RARE
pool throws and the purchase route rolls back; the STARTER pack skips its
zero-count buckets, succeeding over a catalog whose RARE, LEGENDARY and
MYTHIC pools are all empty, drawing only COMMON cards. -/
theorem pack_empty_pool_aborts_witness :
    (∃ rc ∈ PREMIUM.rarityDistribution, rc.2 ≠ 0 ∧ poolNoRare rc.1 = []) ∧
    (∃ e, generatePackCards PREMIUM poolNoRare (pickId 0) = .error e) ∧
    (∃ e, postPackPurchase 1 "PREMIUM" 1 poolNoRare pickId dbW =
      (.serverError e, dbW)) ∧
    (∀ rc ∈ STARTER.rarityDistribution, rc.2 ≠ 0 → pool5 rc.1 ≠ []) ∧
    (∃ l, generatePackCards STARTER pool5 (pickId 0) = .ok l ∧
      ∀ x ∈ l, ∃ rc ∈ STARTER.rarityDistribution, rc.2 ≠ 0 ∧
        x ∈ pool5 rc.1) :=
  ⟨by decide,
   ((pack_empty_pool_aborts PREMIUM poolNoRare).1 (by decide)).1 (pickId 0),
   ((pack_empty_pool_aborts PREMIUM poolNoRare).1 (by decide)).2 1 "PREMIUM"
     1 pickId dbW (by decide) (by decide) (by decide),
   by decide,
   (pack_empty_pool_aborts STARTER pool5).2 (by decide) (pickId 0)⟩

end Jogata

namespace Jogata

/-- A successful `userStyle.create` appends exactly the one new row. -/
theorem userStyleCreate_ok {db db' : DBState} {uid sc : Nat}
    (h : userStyleCreate db uid sc = .ok db') :
    db' = { db with userStyles := db.userStyles ++ [⟨uid, sc, 0, 0, 0⟩] } := by
  unfold userStyleCreate at h
  split at h
  · cases h
  · cases h
    rfl

/-- A successful create loop appends one fresh row per drawn card, all for
the purchasing user, and touches nothing else. -/
theorem createUserStyles_ok (uid : Nat) :
    ∀ (cards : List StyleCard) (db db' : DBState),
      createUserStyles uid db cards = .ok db' →
      db'.transactions = db.transactions ∧ db'.profiles = db.profiles ∧
      db'.listings = db.listings ∧
      db'.userStyles = db.userStyles ++
        cards.map (fun c => ⟨uid, c.id, 0, 0, 0⟩) := by
  intro cards
  induction cards with
  | nil =>
    intro db db' h
    cases h
    exact ⟨rfl, rfl, rfl, by simp⟩
  | cons c rest ih =>
    intro db db' h
    unfold createUserStyles at h
    cases hc : userStyleCreate db uid c.id with
    | error e => rw [hc] at h; cases h
    | ok db2 =>
      rw [hc] at h
      obtain ⟨h1, h2, h3, h4⟩ := ih db2 db' h
      have hdb2 := userStyleCreate_ok hc
      subst hdb2
      refine ⟨h1, h2, h3, ?_⟩
      rw [h4]
      simp

/-- Updating the profile counter leaves the other tables alone and adds
exactly `q` to the user's `packsPurchased`. -/
theorem userProfileUpdatePacks_ok {db db' : DBState} {uid q : Nat}
    (h : userProfileUpdatePacks db uid q = .ok db') :
    db'.transactions = db.transactions ∧ db'.userStyles = db.userStyles ∧
    db'.listings = db.listings ∧
    packsPurchasedOf db' uid = packsPurchasedOf db uid + q := by
  unfold userProfileUpdatePacks at h
  split at h
  case isTrue hex =>
    cases h
    refine ⟨rfl, rfl, rfl, ?_⟩
    unfold packsPurchasedOf
    show (match (db.profiles.map fun p =>
        if p.1 = uid then (p.1, p.2 + q) else p).find?
          (fun p => decide (p.1 = uid)) with
      | some p => p.2
      | none => 0) = _
    have hmap : ∀ ps : List (Nat × Nat),
        (ps.map fun p => if p.1 = uid then (p.1, p.2 + q) else p).find?
            (fun p => decide (p.1 = uid)) =
          (ps.find? (fun p => decide (p.1 = uid))).map
            (fun p => (p.1, p.2 + q)) := by
      intro ps
      induction ps with
      | nil => rfl
      | cons p ps ihp =>
        by_cases hp : p.1 = uid
        · simp [List.find?_cons, hp]
        · simp [List.find?_cons, hp, ihp]
    rw [hmap]
    cases hf : db.profiles.find? (fun p => decide (p.1 = uid)) with
    | some p => simp
    | none =>
      obtain ⟨p0, hp0, hp0u⟩ := List.any_eq_true.mp hex
      have := List.find?_eq_none.mp hf p0 hp0
      simp_all
  case isFalse => cases h

/-- Every successfully generated batch of `q` packs holds exactly
`q * sumDist` cards. -/
theorem generateAllPacks_length (cfg : PackConfig)
    (pool : Rarity → List StyleCard) (pick : Nat → Nat → Nat) :
    ∀ (q i : Nat) (cards : List StyleCard),
      generateAllPacks cfg pool pick i q = .ok cards →
      cards.length = q * sumDist cfg.rarityDistribution := by
  intro q
  induction q with
  | zero =>
    intro i cards h
    cases h
    simp
  | succ n ih =>
    intro i cards h
    unfold generateAllPacks at h
    cases hp : generatePackCards cfg pool (pick i) with
    | error e => rw [hp] at h; cases h
    | ok packCards =>
      rw [hp] at h
      cases hr : generateAllPacks cfg pool pick (i + 1) n with
      | error e => rw [hr] at h; cases h
      | ok rest =>
        rw [hr] at h
        cases h
        have h1 : packCards.length = sumDist cfg.rarityDistribution :=
          generatePackCardsAux_length pool (pick i)
            cfg.rarityDistribution 0 packCards hp
        have h2 := ih (i + 1) rest hr
        rw [List.length_append, h1, h2]
        ring

/-- A successful pack purchase transaction prepends the one PACK_PURCHASE
record at `price * q`, appends `q * sumDist` fresh ownership rows for the
user, adds `q` to the user's counter and leaves listings alone. -/
theorem purchaseTx_ok {userId : Nat} {cfg : PackConfig} {q : Nat}
    {pool : Rarity → List StyleCard} {pick : Nat → Nat → Nat}
    {db db' : DBState}
    (h : purchaseTx userId cfg q pool pick db = .ok db') :
    db'.transactions =
      (⟨userId, "PACK_PURCHASE", cfg.price * q,
        toString q ++ "x " ++ cfg.name, "COMPLETED"⟩ : TxRecord) ::
        db.transactions ∧
    (∃ newRows : List UserStyle,
       db'.userStyles = db.userStyles ++ newRows ∧
       newRows.length = q * sumDist cfg.rarityDistribution ∧
       ∀ r ∈ newRows, r.userId = userId) ∧
    packsPurchasedOf db' userId = packsPurchasedOf db userId + q ∧
    db'.listings = db.listings := by
  unfold purchaseTx at h
  split at h
  next e heq => cases h
  next allCards heq =>
    simp only [] at h
    split at h
    next e heq2 => cases h
    next db2 heq2 =>
      obtain ⟨c1, c2, c3, c4⟩ := createUserStyles_ok userId allCards _ _ heq2
      obtain ⟨p1, p2, p3, p4⟩ := userProfileUpdatePacks_ok h
      refine ⟨?_, ?_, ?_, ?_⟩
      · rw [p1, c1]
        rfl
      · refine ⟨allCards.map (fun c => ⟨userId, c.id, 0, 0, 0⟩), ?_, ?_, ?_⟩
        · rw [p2, c4]
          rfl
        · rw [List.length_map]
          exact generateAllPacks_length cfg pool pick q 0 allCards heq
        · intro r hr
          obtain ⟨c, _, rfl⟩ := List.mem_map.mp hr
          rfl
      · rw [p4]
        have : packsPurchasedOf db2 userId =
            packsPurchasedOf db userId := by
          unfold packsPurchasedOf
          rw [c2]
          rfl
        rw [this]
      · rw [p3, c3]
        rfl

end Jogata

namespace Jogata

/-- Claim C1: for every user, every defined pack type and every accepted
quantity `N` (1..10), the purchase runs as one atomic unit: a successful
`POST /packs/purchase` creates exactly `N * cards` new ownership rows,
all owned by the purchasing user, exactly one PACK_PURCHASE transaction
record with `amount = price * N`, and raises the user's `packsPurchased`
by exactly `N`; any non-success outcome leaves the database exactly as it
was — no rows, no record, no counter change. -/
theorem pack_purchase_atomic (userId : Nat) (packType : String)
    (cfg : PackConfig) (q : Nat) (pool : Rarity → List StyleCard)
    (pick : Nat → Nat → Nat) (db : DBState)
    (hk : lookupPackType packType = some cfg) :
    (∀ db', postPackPurchase userId packType (q : Int) pool pick db =
        (.ok200, db') →
      db'.transactions =
        (⟨userId, "PACK_PURCHASE", cfg.price * q,
          toString q ++ "x " ++ cfg.name, "COMPLETED"⟩ : TxRecord) ::
          db.transactions ∧
      (∃ newRows : List UserStyle,
         db'.userStyles = db.userStyles ++ newRows ∧
         newRows.length = q * cfg.cards ∧
         ∀ r ∈ newRows, r.userId = userId) ∧
      packsPurchasedOf db' userId = packsPurchasedOf db userId + q ∧
      db'.listings = db.listings) ∧
    (∀ r db', postPackPurchase userId packType (q : Int) pool pick db =
        (r, db') → r ≠ .ok200 → db' = db) := by
  constructor
  · intro db' h
    unfold postPackPurchase at h
    split at h
    case isFalse => cases h
    case isTrue hguard =>
      split at h
      next cfg2 hlk =>
        rw [hk] at hlk
        injection hlk with hlk
        subst hlk
        split at h
        next db2 heq =>
          cases h
          have hqq : (q : Int).toNat = q := Int.toNat_natCast q
          rw [hqq] at heq
          obtain ⟨h1, ⟨rows, hr1, hr2, hr3⟩, h3, h4⟩ := purchaseTx_ok heq
          have hcards : sumDist cfg.rarityDistribution = cfg.cards :=
            sum_eq_cards_of_packType cfg (lookupPackType_mem hk).1
          exact ⟨h1, ⟨rows, hr1, by rw [hr2, hcards], hr3⟩, h3, h4⟩
        next e heq => cases h
      next hlk =>
        rw [hk] at hlk
        cases hlk
  · intro r db' h hne
    unfold postPackPurchase at h
    split at h
    case isFalse =>
      cases h
      rfl
    case isTrue hguard =>
      split at h
      next cfg2 hlk =>
        split at h
        next db2 heq =>
          cases h
          exact absurd rfl hne
        next e heq =>
          cases h
          rfl
      next hlk =>
        cases h
        rfl

/-- Witness for C1: user 1 buys one STARTER pack over a five-card COMMON
catalog; the run succeeds, creating the five ownership rows, the single
999-cent PACK_PURCHASE record, and moving the counter from 0 to 1. -/
theorem pack_purchase_atomic_witness :
    lookupPackType "STARTER" = some STARTER ∧
    postPackPurchase 1 "STARTER" ((1 : Nat) : Int) pool5 pickId dbW =
      (.ok200,
       ⟨[⟨1, "PACK_PURCHASE", 999, "1x Starter Pack", "COMPLETED"⟩],
        [⟨1, 1, 0, 0, 0⟩, ⟨1, 2, 0, 0, 0⟩, ⟨1, 3, 0, 0, 0⟩,
         ⟨1, 4, 0, 0, 0⟩, ⟨1, 5, 0, 0, 0⟩],
        [(1, 1)], []⟩) ∧
    ((⟨[⟨1, "PACK_PURCHASE", 999, "1x Starter Pack", "COMPLETED"⟩],
       [⟨1, 1, 0, 0, 0⟩, ⟨1, 2, 0, 0, 0⟩, ⟨1, 3, 0, 0, 0⟩,
        ⟨1, 4, 0, 0, 0⟩, ⟨1, 5, 0, 0, 0⟩],
       [(1, 1)], []⟩ : DBState).transactions =
      (⟨1, "PACK_PURCHASE", STARTER.price * 1,
        toString 1 ++ "x " ++ STARTER.name, "COMPLETED"⟩ : TxRecord) ::
        dbW.transactions ∧
     (∃ newRows : List UserStyle,
        (⟨[⟨1, "PACK_PURCHASE", 999, "1x Starter Pack", "COMPLETED"⟩],
          [⟨1, 1, 0, 0, 0⟩, ⟨1, 2, 0, 0, 0⟩, ⟨1, 3, 0, 0, 0⟩,
           ⟨1, 4, 0, 0, 0⟩, ⟨1, 5, 0, 0, 0⟩],
          [(1, 1)], []⟩ : DBState).userStyles =
          dbW.userStyles ++ newRows ∧
        newRows.length = 1 * STARTER.cards ∧
        ∀ r ∈ newRows, r.userId = 1) ∧
     packsPurchasedOf
        ⟨[⟨1, "PACK_PURCHASE", 999, "1x Starter Pack", "COMPLETED"⟩],
         [⟨1, 1, 0, 0, 0⟩, ⟨1, 2, 0, 0, 0⟩, ⟨1, 3, 0, 0, 0⟩,
          ⟨1, 4, 0, 0, 0⟩, ⟨1, 5, 0, 0, 0⟩],
         [(1, 1)], []⟩ 1 = packsPurchasedOf dbW 1 + 1 ∧
     (⟨[⟨1, "PACK_PURCHASE", 999, "1x Starter Pack", "COMPLETED"⟩],
       [⟨1, 1, 0, 0, 0⟩, ⟨1, 2, 0, 0, 0⟩, ⟨1, 3, 0, 0, 0⟩,
        ⟨1, 4, 0, 0, 0⟩, ⟨1, 5, 0, 0, 0⟩],
       [(1, 1)], []⟩ : DBState).listings = dbW.listings) :=
  ⟨by decide, by decide,
   (pack_purchase_atomic 1 "STARTER" STARTER 1 pool5 pickId dbW
       (by decide)).1 _ (by decide)⟩

end Jogata

namespace Jogata

/-- An id-preserving update commutes with looking a listing up: the found
row is the updated original row. -/
theorem find?_update_map (ls : List Listing) (id p : Nat)
    (f : Listing → Listing) (hf : ∀ l, (f l).id = l.id) :
    (ls.map (fun l => if l.id = id then f l else l)).find?
        (fun l => l.id = p) =
      (ls.find? (fun l => l.id = p)).map
        (fun l => if l.id = id then f l else l) := by
  induction ls with
  | nil => rfl
  | cons a ls ih =>
    rw [List.map_cons]
    by_cases hp : a.id = p
    · have hmid : ((if a.id = id then f a else a).id = p) := by
        by_cases hid : a.id = id
        · rw [if_pos hid, hf]
          exact hp
        · rw [if_neg hid]
          exact hp
      rw [List.find?_cons_of_pos _ (by simpa using hmid),
          List.find?_cons_of_pos _ (by simpa using hp)]
      rfl
    · have hmid : ¬((if a.id = id then f a else a).id = p) := by
        by_cases hid : a.id = id
        · rw [if_pos hid, hf]
          exact hp
        · rw [if_neg hid]
          exact hp
      rw [List.find?_cons_of_neg _ (by simpa using hmid),
          List.find?_cons_of_neg _ (by simpa using hp)]
      exact ih

/-- `statusOf` after an id-preserving single-id update. -/
theorem statusOf_updateListing (db : DBState) (id p : Nat)
    (f : Listing → Listing) (hf : ∀ l, (f l).id = l.id) :
    statusOf (updateListing db id f) p =
      (findListing db p).map
        (fun l => if l.id = id then (f l).status else l.status) := by
  unfold statusOf findListing updateListing
  rw [find?_update_map db.listings id p f hf]
  cases db.listings.find? (fun l => l.id = p) with
  | none => rfl
  | some l =>
    by_cases hid : l.id = id
    · simp [hid]
    · simp [hid]

/-- The expired-listing branch of `POST /listings/:id/purchase`, fully
evaluated: 400 LISTING_EXPIRED with only the status update persisted. -/
theorem postListingPurchase_expired_eq (buyerId listingId now : Nat)
    (db : DBState) (l : Listing) (e : Nat)
    (hfind : findListing db listingId = some l)
    (hact : l.status = .ACTIVE)
    (hsell : l.sellerId ≠ buyerId)
    (hexp : l.expiresAt = some e) (hlt : e < now) :
    postListingPurchase buyerId listingId now db =
      (.badRequest "LISTING_EXPIRED",
       updateListing db listingId
         (fun x => { x with status := .EXPIRED })) := by
  simp only [postListingPurchase, hfind]
  rw [if_neg (by simp [hact])]
  rw [if_neg (by simp [hsell])]
  rw [if_pos (by simp [listingExpired, hexp, hlt])]

/-- Claim C6: a purchase attempt on a listing still recorded ACTIVE whose
`expiresAt` lies in the past (buyer distinct from seller) persists the
ACTIVE → EXPIRED transition, answers 400 with the expiry-specific code
LISTING_EXPIRED, and never completes a sale: the listing is not SOLD, no
transaction record is written, and no ownership row moves. -/
theorem listing_expiry_rejects (buyerId listingId now : Nat) (db : DBState)
    (l : Listing) (e : Nat)
    (hfind : findListing db listingId = some l)
    (hact : l.status = .ACTIVE)
    (hsell : l.sellerId ≠ buyerId)
    (hexp : l.expiresAt = some e) (hlt : e < now) :
    postListingPurchase buyerId listingId now db =
      (.badRequest "LISTING_EXPIRED",
       updateListing db listingId (fun x => { x with status := .EXPIRED })) ∧
    statusOf (postListingPurchase buyerId listingId now db).2 listingId =
      some .EXPIRED ∧
    (postListingPurchase buyerId listingId now db).2.transactions =
      db.transactions ∧
    (postListingPurchase buyerId listingId now db).2.userStyles =
      db.userStyles := by
  have hmain := postListingPurchase_expired_eq buyerId listingId now db l e
    hfind hact hsell hexp hlt
  refine ⟨hmain, ?_, ?_, ?_⟩
  · rw [hmain]
    rw [statusOf_updateListing db listingId listingId
      (fun x => { x with status := .EXPIRED }) (fun x => rfl)]
    rw [hfind]
    have hid : l.id = listingId := by
      have := List.find?_some hfind
      simpa using this
    simp [hid]
  · rw [hmain]
    rfl
  · rw [hmain]
    rfl

/-- Witness for C6: buyer 3 tries listing 1 of `dbM` at time 200, past its
expiry 100; the listing flips to EXPIRED, the reply is LISTING_EXPIRED,
and no transaction or ownership change is persisted. -/
theorem listing_expiry_rejects_witness :
    (findListing dbM 1 = some listing1 ∧ listing1.status = .ACTIVE ∧
     listing1.sellerId ≠ 3 ∧ listing1.expiresAt = some 100 ∧ 100 < 200) ∧
    (postListingPurchase 3 1 200 dbM =
      (.badRequest "LISTING_EXPIRED",
       updateListing dbM 1 (fun x => { x with status := .EXPIRED })) ∧
     statusOf (postListingPurchase 3 1 200 dbM).2 1 = some .EXPIRED ∧
     (postListingPurchase 3 1 200 dbM).2.transactions = dbM.transactions ∧
     (postListingPurchase 3 1 200 dbM).2.userStyles = dbM.userStyles) :=
  ⟨⟨by decide, by decide, by decide, by decide, by decide⟩,
   listing_expiry_rejects 3 1 200 dbM listing1 100 (by decide) (by decide)
     (by decide) (by decide) (by decide)⟩

end Jogata

namespace Jogata

/-- `userStyle.create` succeeds and appends the row when the (user, card)
pair is not yet in the ledger. -/
theorem userStyleCreate_not_exists {db : DBState} {uid sc : Nat}
    (h : ∀ r ∈ db.userStyles, ¬(r.userId = uid ∧ r.styleCardId = sc)) :
    userStyleCreate db uid sc =
      .ok { db with userStyles := db.userStyles ++ [⟨uid, sc, 0, 0, 0⟩] } := by
  unfold userStyleCreate
  rw [if_neg]
  intro hany
  obtain ⟨r, hr, hru⟩ := List.any_eq_true.mp hany
  exact h r hr (by simpa using hru)

/-- `userStyle.create` hits the unique index when the (user, card) pair
already has a ledger row. -/
theorem userStyleCreate_exists {db : DBState} {uid sc : Nat}
    (h : ∃ r ∈ db.userStyles, r.userId = uid ∧ r.styleCardId = sc) :
    userStyleCreate db uid sc =
      .error "Unique index violation on user_styles (userId, styleCardId)" := by
  unfold userStyleCreate
  rw [if_pos]
  obtain ⟨r, hr, h1, h2⟩ := h
  exact List.any_eq_true.mpr ⟨r, hr, by simp [h1, h2]⟩

/-- The successful marketplace purchase transaction, fully evaluated: the
listing rows with the listing's id are marked SOLD to the buyer, the
seller's and buyer's transaction rows are prepended, the buyer gains a
fresh ownership row and the seller's rows for the card are removed. -/
theorem purchaseListingTx_ok {buyerId : Nat} {l : Listing} {now : Nat}
    {db : DBState} (hsell : l.sellerId ≠ buyerId)
    (hown : ∀ r ∈ db.userStyles,
      ¬(r.userId = buyerId ∧ r.styleCardId = l.styleCardId)) :
    purchaseListingTx buyerId l now db = .ok
      ⟨(⟨l.sellerId, "MARKETPLACE_SELL", l.price * 95 / 100,
          "Sold " ++ l.styleCardName, "COMPLETED"⟩ : TxRecord) ::
        (⟨buyerId, "MARKETPLACE_BUY", l.price,
          "Purchased " ++ l.styleCardName, "COMPLETED"⟩ : TxRecord) ::
        db.transactions,
       db.userStyles.filter
         (fun r => ¬(r.userId = l.sellerId ∧ r.styleCardId = l.styleCardId))
         ++ [⟨buyerId, l.styleCardId, 0, 0, 0⟩],
       db.profiles,
       db.listings.map (fun x => if x.id = l.id then
         { x with status := .SOLD, buyerId := some buyerId,
                  soldAt := some now } else x)⟩ := by
  unfold purchaseListingTx
  simp only []
  rw [@userStyleCreate_not_exists
    (transactionCreate
      (transactionCreate
        (updateListing db l.id (fun x =>
          { x with status := .SOLD, buyerId := some buyerId,
                   soldAt := some now }))
        ⟨buyerId, "MARKETPLACE_BUY", l.price,
         "Purchased " ++ l.styleCardName, "COMPLETED"⟩)
      ⟨l.sellerId, "MARKETPLACE_SELL", l.price * 95 / 100,
       "Sold " ++ l.styleCardName, "COMPLETED"⟩)
    buyerId l.styleCardId hown]
  simp only []
  congr 1
  refine DBState.mk.injEq _ _ _ _ _ _ _ _ |>.mpr ⟨rfl, ?_, rfl, rfl⟩
  rw [List.filter_append]
  congr 1
  rw [List.filter_cons]
  rw [if_pos]
  · rfl
  · simp
    intro habs
    exact absurd habs.symm hsell

end Jogata

namespace Jogata

/-- Claim C5: buying an ACTIVE, unexpired listing priced `P` as a buyer
distinct from the seller (and not already holding the card) atomically
writes the buyer's transaction at exactly `P`, the seller's at exactly
`floor(P * 95 / 100)` (so 1000 and 950 at `P = 1000`), creates the
buyer's ownership row, removes the seller's row for the card, and marks
the listing SOLD. -/
theorem marketplace_purchase_split (buyerId listingId now : Nat)
    (db : DBState) (l : Listing)
    (hfind : findListing db listingId = some l)
    (hact : l.status = .ACTIVE)
    (hsell : l.sellerId ≠ buyerId)
    (hnexp : listingExpired l now = false)
    (hown : ∀ r ∈ db.userStyles,
      ¬(r.userId = buyerId ∧ r.styleCardId = l.styleCardId)) :
    ∃ db', postListingPurchase buyerId listingId now db = (.ok200, db') ∧
      db'.transactions =
        (⟨l.sellerId, "MARKETPLACE_SELL", l.price * 95 / 100,
          "Sold " ++ l.styleCardName, "COMPLETED"⟩ : TxRecord) ::
        (⟨buyerId, "MARKETPLACE_BUY", l.price,
          "Purchased " ++ l.styleCardName, "COMPLETED"⟩ : TxRecord) ::
        db.transactions ∧
      db'.userStyles =
        db.userStyles.filter
          (fun r => ¬(r.userId = l.sellerId ∧ r.styleCardId = l.styleCardId))
          ++ [⟨buyerId, l.styleCardId, 0, 0, 0⟩] ∧
      statusOf db' listingId = some .SOLD := by
  have hid : l.id = listingId := by
    have := List.find?_some hfind
    simpa using this
  have hrun : postListingPurchase buyerId listingId now db = (.ok200,
      ⟨(⟨l.sellerId, "MARKETPLACE_SELL", l.price * 95 / 100,
          "Sold " ++ l.styleCardName, "COMPLETED"⟩ : TxRecord) ::
        (⟨buyerId, "MARKETPLACE_BUY", l.price,
          "Purchased " ++ l.styleCardName, "COMPLETED"⟩ : TxRecord) ::
        db.transactions,
       db.userStyles.filter
         (fun r => ¬(r.userId = l.sellerId ∧ r.styleCardId = l.styleCardId))
         ++ [⟨buyerId, l.styleCardId, 0, 0, 0⟩],
       db.profiles,
       db.listings.map (fun x => if x.id = l.id then
         { x with status := .SOLD, buyerId := some buyerId,
                  soldAt := some now } else x)⟩) := by
    simp only [postListingPurchase, hfind]
    rw [if_neg (by simp [hact])]
    rw [if_neg (by simp [hsell])]
    rw [if_neg (by simp [hnexp])]
    rw [purchaseListingTx_ok hsell hown]
  refine ⟨_, hrun, rfl, rfl, ?_⟩
  have hupd : statusOf (updateListing db l.id (fun x =>
      { x with status := .SOLD, buyerId := some buyerId,
               soldAt := some now })) listingId = some .SOLD := by
    rw [statusOf_updateListing db l.id listingId
      (fun x => { x with status := .SOLD, buyerId := some buyerId,
                         soldAt := some now }) (fun x => rfl)]
    rw [hfind]
    simp [hid]
  simpa [updateListing, statusOf, findListing] using hupd

/-- Witness for C5: buyer 3 buys listing 1 of `dbM` (price 1000) at time
50; the buyer's record is 1000, the seller's 950, the row moves from
seller 2 to buyer 3, and the listing is SOLD. -/
theorem marketplace_purchase_split_witness :
    (findListing dbM 1 = some listing1 ∧ listing1.status = .ACTIVE ∧
     listing1.sellerId ≠ 3 ∧ listingExpired listing1 50 = false ∧
     (∀ r ∈ dbM.userStyles,
       ¬(r.userId = 3 ∧ r.styleCardId = listing1.styleCardId))) ∧
    (∃ db', postListingPurchase 3 1 50 dbM = (.ok200, db') ∧
      db'.transactions =
        (⟨listing1.sellerId, "MARKETPLACE_SELL",
          listing1.price * 95 / 100,
          "Sold " ++ listing1.styleCardName, "COMPLETED"⟩ : TxRecord) ::
        (⟨3, "MARKETPLACE_BUY", listing1.price,
          "Purchased " ++ listing1.styleCardName, "COMPLETED"⟩ : TxRecord) ::
        dbM.transactions ∧
      db'.userStyles =
        dbM.userStyles.filter
          (fun r => ¬(r.userId = listing1.sellerId ∧
            r.styleCardId = listing1.styleCardId))
          ++ [⟨3, listing1.styleCardId, 0, 0, 0⟩] ∧
      statusOf db' 1 = some .SOLD) :=
  ⟨⟨by decide, by decide, by decide, by decide, by decide⟩,
   marketplace_purchase_split 3 1 50 dbM listing1 (by decide) (by decide)
     (by decide) (by decide) (by decide)⟩

/-- Claim C9: when the buyer already owns a ledger row for the listed
card, the buyer-side `userStyle.create` violates the unique
(userId, styleCardId) index, so the purchase transaction fails and rolls
back entirely: the route reports the thrown error, the database is
exactly as before, and the listing is still ACTIVE. -/
theorem marketplace_duplicate_rolls_back (buyerId listingId now : Nat)
    (db : DBState) (l : Listing)
    (hfind : findListing db listingId = some l)
    (hact : l.status = .ACTIVE)
    (hsell : l.sellerId ≠ buyerId)
    (hnexp : listingExpired l now = false)
    (hown : ∃ r ∈ db.userStyles,
      r.userId = buyerId ∧ r.styleCardId = l.styleCardId) :
    ∃ e, postListingPurchase buyerId listingId now db =
        (.serverError e, db) ∧
      statusOf db listingId = some .ACTIVE := by
  have hrun : postListingPurchase buyerId listingId now db =
      (.serverError
        "Unique index violation on user_styles (userId, styleCardId)",
       db) := by
    simp only [postListingPurchase, hfind]
    rw [if_neg (by simp [hact])]
    rw [if_neg (by simp [hsell])]
    rw [if_neg (by simp [hnexp])]
    unfold purchaseListingTx
    simp only []
    rw [@userStyleCreate_exists
      (transactionCreate
        (transactionCreate
          (updateListing db l.id (fun x =>
            { x with status := .SOLD, buyerId := some buyerId,
                     soldAt := some now }))
          ⟨buyerId, "MARKETPLACE_BUY", l.price,
           "Purchased " ++ l.styleCardName, "COMPLETED"⟩)
        ⟨l.sellerId, "MARKETPLACE_SELL", l.price * 95 / 100,
         "Sold " ++ l.styleCardName, "COMPLETED"⟩)
      buyerId l.styleCardId hown]
  refine ⟨_, hrun, ?_⟩
  unfold statusOf
  rw [hfind]
  simp [hact]

/-- Witness for C9: in `dbMdup` buyer 3 already owns card 7; the purchase
of listing 1 answers 500, the state is untouched and the listing stays
ACTIVE. -/
theorem marketplace_duplicate_rolls_back_witness :
    (findListing dbMdup 1 = some listing1 ∧ listing1.status = .ACTIVE ∧
     listing1.sellerId ≠ 3 ∧ listingExpired listing1 50 = false ∧
     (∃ r ∈ dbMdup.userStyles,
       r.userId = 3 ∧ r.styleCardId = listing1.styleCardId)) ∧
    (∃ e, postListingPurchase 3 1 50 dbMdup = (.serverError e, dbMdup) ∧
      statusOf dbMdup 1 = some .ACTIVE) :=
  ⟨⟨by decide, by decide, by decide, by decide, by decide⟩,
   marketplace_duplicate_rolls_back 3 1 50 dbMdup listing1 (by decide)
     (by decide) (by decide) (by decide) (by decide)⟩

end Jogata

namespace Jogata

/-- Whatever rows the purchase transaction ends up writing, the listing
table afterwards is exactly the original with the bought listing's rows
marked SOLD. -/
theorem purchaseListingTx_listings {buyerId : Nat} {l : Listing}
    {now : Nat} {db db2 : DBState}
    (h : purchaseListingTx buyerId l now db = .ok db2) :
    db2.listings = db.listings.map (fun x => if x.id = l.id then
      { x with status := .SOLD, buyerId := some buyerId,
               soldAt := some now } else x) := by
  unfold purchaseListingTx at h
  simp only [] at h
  split at h
  next e heq => cases h
  next db4 heq =>
    cases h
    have h4 := userStyleCreate_ok heq
    subst h4
    rfl

/-- With distinct listing ids, a row with the looked-up id is the found
row. -/
theorem find?_eq_of_uniqueIds {p : Nat} :
    ∀ {ls : List Listing}, ls.Pairwise (fun a b => a.id ≠ b.id) →
      ∀ {x y : Listing}, ls.find? (fun l => l.id = p) = some x →
        y ∈ ls → y.id = p → y = x := by
  intro ls
  induction ls with
  | nil =>
    intro _ x y hx hy
    cases hy
  | cons a ls ih =>
    intro hu x y hx hy hyp
    have hu1 := List.pairwise_cons.mp hu
    by_cases ha : a.id = p
    · rw [List.find?_cons_of_pos _ (by simpa using ha)] at hx
      injection hx with hx
      subst hx
      rcases List.mem_cons.mp hy with rfl | hmem
      · rfl
      · exact absurd (hyp.trans ha.symm) (hu1.1 y hmem).symm
    · rw [List.find?_cons_of_neg _ (by simpa using ha)] at hx
      rcases List.mem_cons.mp hy with rfl | hmem
      · exact absurd hyp ha
      · exact ih hu1.2 hx hmem hyp

end Jogata

namespace Jogata

/-- Any single purchase request moves any listing's status only along the
allowed edges: untouched, or ACTIVE to SOLD / EXPIRED. -/
theorem postListingPurchase_transition (buyerId listingId now : Nat)
    (db : DBState) (p : Nat) :
    allowedTransition (statusOf db p)
      (statusOf (postListingPurchase buyerId listingId now db).2 p) := by
  unfold postListingPurchase
  cases hf : findListing db listingId with
  | none => exact Or.inl rfl
  | some l =>
    simp only []
    have hlid : l.id = listingId := by
      have := List.find?_some hf
      simpa using this
    by_cases h1 : l.status ≠ ListingStatus.ACTIVE
    · rw [if_pos (by simpa using h1)]
      exact Or.inl rfl
    · rw [if_neg (by simpa using h1)]
      push_neg at h1
      by_cases h2 : l.sellerId = buyerId
      · rw [if_pos h2]
        exact Or.inl rfl
      · rw [if_neg h2]
        by_cases h3 : listingExpired l now = true
        · rw [if_pos h3]
          show allowedTransition (statusOf db p)
            (statusOf (updateListing db listingId
              (fun x => { x with status := .EXPIRED })) p)
          rw [statusOf_updateListing db listingId p
            (fun x => { x with status := .EXPIRED }) (fun x => rfl)]
          unfold statusOf
          cases hp : findListing db p with
          | none => exact Or.inl rfl
          | some x =>
            have hxp : x.id = p := by
              have := List.find?_some hp
              simpa using this
            by_cases hpl : x.id = listingId
            · have hpeq : p = listingId := hxp ▸ hpl
              rw [hpeq, hf] at hp
              injection hp with hp
              subst hp
              refine Or.inr ⟨?_, Or.inr (Or.inr ?_)⟩
              · simp [h1]
              · simp [hpl]
            · simp only [Option.map_some']
              rw [if_neg hpl]
              exact Or.inl rfl
        · rw [if_neg h3]
          cases htx : purchaseListingTx buyerId l now db with
          | error e => exact Or.inl rfl
          | ok db2 =>
            show allowedTransition (statusOf db p) (statusOf db2 p)
            have hls := purchaseListingTx_listings htx
            unfold statusOf findListing
            rw [hls, find?_update_map db.listings l.id p
              (fun x => { x with status := .SOLD, buyerId := some buyerId,
                                 soldAt := some now }) (fun x => rfl)]
            cases hp : db.listings.find? (fun x => x.id = p) with
            | none => exact Or.inl rfl
            | some x =>
              have hxp : x.id = p := by
                have := List.find?_some hp
                simpa using this
              by_cases hpl : x.id = l.id
              · have hpll : p = listingId := by
                  rw [← hxp, hpl, hlid]
                rw [hpll] at hp
                unfold findListing at hf
                rw [hf] at hp
                injection hp with hp
                subst hp
                refine Or.inr ⟨?_, Or.inl ?_⟩
                · simp [h1]
                · simp [hpl]
              · simp only [Option.map_some']
                rw [if_neg hpl]
                exact Or.inl rfl

/-- Under the primary-key constraint on listing ids, cancelling moves any
listing's status only along the allowed edges: untouched, or ACTIVE to
CANCELLED. -/
theorem deleteListingRoute_transition (userId listingId : Nat)
    (db : DBState) (p : Nat) (hu : UniqueListingIds db) :
    allowedTransition (statusOf db p)
      (statusOf (deleteListingRoute userId listingId db).2 p) := by
  unfold deleteListingRoute
  cases hf : db.listings.find? (fun l =>
      l.id = listingId ∧ l.sellerId = userId ∧
      l.status = ListingStatus.ACTIVE) with
  | none => exact Or.inl rfl
  | some l0 =>
    simp only []
    have hl0 : l0.id = listingId ∧ l0.sellerId = userId ∧
        l0.status = ListingStatus.ACTIVE := by
      have := List.find?_some hf
      simpa using this
    have hl0mem : l0 ∈ db.listings := List.mem_of_find?_eq_some hf
    show allowedTransition (statusOf db p)
      (statusOf (updateListing db listingId
        (fun x => { x with status := .CANCELLED })) p)
    rw [statusOf_updateListing db listingId p
      (fun x => { x with status := .CANCELLED }) (fun x => rfl)]
    unfold statusOf
    cases hp : findListing db p with
    | none => exact Or.inl rfl
    | some x =>
      have hxp : x.id = p := by
        have := List.find?_some hp
        simpa using this
      by_cases hpl : x.id = listingId
      · have hpeq : p = listingId := hxp ▸ hpl
        have hl0x : l0 = x :=
          @find?_eq_of_uniqueIds p db.listings hu x l0 hp hl0mem
            (by rw [hl0.1, hpeq])
        refine Or.inr ⟨?_, Or.inr (Or.inl ?_)⟩
        · simp only [Option.map_some']
          rw [← hl0x, hl0.2.2]
        · simp [hpl]
      · simp only [Option.map_some']
        rw [if_neg hpl]
        exact Or.inl rfl

end Jogata

namespace Jogata

/-- Counterexample to claim C7 as stated: `GET /listings` is a pure read
and performs no EXPIRED transition.  In `dbRead`, listing 1 is ACTIVE with
`expiresAt = 5`, so at any later time (say 10) the claim requires a read
to flip it to EXPIRED; the handler returns the listing — still served
from the ACTIVE filter — and leaves the stored status ACTIVE, not
EXPIRED. -/
theorem listing_read_no_expiry_transition :
    dbRead.listings.map (fun l => l.expiresAt) = [some 5] ∧ (5 < 10) ∧
    (getListings dbRead).2 = dbRead ∧
    statusOf (getListings dbRead).2 1 = some .ACTIVE ∧
    ¬statusOf (getListings dbRead).2 1 = some .EXPIRED ∧
    (getListings dbRead).1 = dbRead.listings := by
  decide

/-- Claim C7, amended: every status change performed by a purchase or a
cancel is one of ACTIVE → SOLD, ACTIVE → CANCELLED, ACTIVE → EXPIRED (so
terminal states are never left, with cancel requiring the primary-key
uniqueness of listing ids); `GET /listings` changes no state at all; and
the ACTIVE → EXPIRED transition is performed by a purchase attempt past
`expiresAt` — not by reads, which leave an expired ACTIVE listing
untouched. -/
theorem listing_state_machine :
    (∀ (buyerId listingId now : Nat) (db : DBState) (p : Nat),
      allowedTransition (statusOf db p)
        (statusOf (postListingPurchase buyerId listingId now db).2 p)) ∧
    (∀ (userId listingId : Nat) (db : DBState) (p : Nat),
      UniqueListingIds db →
      allowedTransition (statusOf db p)
        (statusOf (deleteListingRoute userId listingId db).2 p)) ∧
    (∀ db : DBState, (getListings db).2 = db) ∧
    (∀ (buyerId listingId now : Nat) (db : DBState) (l : Listing) (e : Nat),
      findListing db listingId = some l → l.status = .ACTIVE →
      l.sellerId ≠ buyerId → l.expiresAt = some e → e < now →
      statusOf (postListingPurchase buyerId listingId now db).2 listingId =
        some .EXPIRED) := by
  refine ⟨?_, ?_, ?_, ?_⟩
  · exact postListingPurchase_transition
  · intro userId listingId db p hu
    exact deleteListingRoute_transition userId listingId db p hu
  · intro db
    rfl
  · intro buyerId listingId now db l e hfind hact hsell hexp hlt
    rw [postListingPurchase_expired_eq buyerId listingId now db l e
      hfind hact hsell hexp hlt]
    rw [statusOf_updateListing db listingId listingId
      (fun x => { x with status := .EXPIRED }) (fun x => rfl)]
    rw [hfind]
    have hid : l.id = listingId := by
      have := List.find?_some hfind
      simpa using this
    simp [hid]

/-- Witness for the amended C7: cancelling listing 1 of `dbM` (unique
ids) takes it ACTIVE → CANCELLED, an allowed transition, and the expired
purchase attempt on `dbM` at time 200 drives listing 1 to EXPIRED. -/
theorem listing_state_machine_witness :
    UniqueListingIds dbM ∧
    allowedTransition (statusOf dbM 1)
      (statusOf (deleteListingRoute 2 1 dbM).2 1) ∧
    (findListing dbM 1 = some listing1 ∧ listing1.status = .ACTIVE ∧
     listing1.sellerId ≠ 3 ∧ listing1.expiresAt = some 100 ∧ 100 < 200) ∧
    statusOf (postListingPurchase 3 1 200 dbM).2 1 = some .EXPIRED :=
  ⟨by constructor <;> simp,
   listing_state_machine.2.1 2 1 dbM 1 (by constructor <;> simp),
   ⟨by decide, by decide, by decide, by decide, by decide⟩,
   listing_state_machine.2.2.2 3 1 200 dbM listing1 100 (by decide)
     (by decide) (by decide) (by decide) (by decide)⟩

end Jogata

namespace Jogata

/-- A successful `userStyle.create` preserves at-most-one-row-per-pair. -/
theorem userStyleCreate_uniquePairs {db db' : DBState} {uid sc : Nat}
    (hu : UniquePairs db.userStyles)
    (h : userStyleCreate db uid sc = .ok db') :
    UniquePairs db'.userStyles := by
  have hno : ∀ r ∈ db.userStyles,
      ¬(r.userId = uid ∧ r.styleCardId = sc) := by
    by_contra hcon
    push_neg at hcon
    obtain ⟨r, hr, hru⟩ := hcon
    rw [userStyleCreate_exists ⟨r, hr, hru⟩] at h
    cases h
  have hok := userStyleCreate_ok h
  subst hok
  show UniquePairs (db.userStyles ++ [⟨uid, sc, 0, 0, 0⟩])
  unfold UniquePairs at *
  rw [List.pairwise_append]
  refine ⟨hu, List.pairwise_singleton _ _, ?_⟩
  intro a ha b hb
  simp only [List.mem_singleton] at hb
  subst hb
  exact hno a ha

/-- The per-card create loop preserves at-most-one-row-per-pair. -/
theorem createUserStyles_uniquePairs (uid : Nat) :
    ∀ (cards : List StyleCard) (db db' : DBState),
      createUserStyles uid db cards = .ok db' →
      UniquePairs db.userStyles → UniquePairs db'.userStyles := by
  intro cards
  induction cards with
  | nil =>
    intro db db' h hu
    cases h
    exact hu
  | cons c rest ih =>
    intro db db' h hu
    unfold createUserStyles at h
    cases hc : userStyleCreate db uid c.id with
    | error e => rw [hc] at h; cases h
    | ok db2 =>
      rw [hc] at h
      exact ih db2 db' h (userStyleCreate_uniquePairs hu hc)

/-- The pack purchase transaction preserves at-most-one-row-per-pair. -/
theorem purchaseTx_uniquePairs {userId : Nat} {cfg : PackConfig} {q : Nat}
    {pool : Rarity → List StyleCard} {pick : Nat → Nat → Nat}
    {db db' : DBState}
    (h : purchaseTx userId cfg q pool pick db = .ok db')
    (hu : UniquePairs db.userStyles) : UniquePairs db'.userStyles := by
  unfold purchaseTx at h
  split at h
  next e heq => cases h
  next allCards heq =>
    simp only [] at h
    split at h
    next e heq2 => cases h
    next db2 heq2 =>
      have hu2 := createUserStyles_uniquePairs userId allCards _ _ heq2 hu
      have hp := userProfileUpdatePacks_ok h
      unfold UniquePairs
      rw [hp.2.1]
      exact hu2

/-- Counterexample to claim C4 as stated: in `dbC4` user 1 already owns
card 7 with counters (3, 1, 1); a STARTER purchase over the one-card
catalog draws card 7 again.  The claim requires the re-acquisition to
increment the existing row's counters; instead the buyer-side
`userStyle.create` hits the unique index, the whole purchase rolls back
with a 500, and the database — counters included — is exactly as
before. -/
theorem pack_reacquisition_fails :
    (∃ r ∈ dbC4.userStyles, r.userId = 1 ∧ r.styleCardId = 7) ∧
    postPackPurchase 1 "STARTER" 1 poolOnly7 pickZero dbC4 =
      (.serverError
        "Unique index violation on user_styles (userId, styleCardId)",
       dbC4) ∧
    dbC4.userStyles = [⟨1, 7, 3, 1, 1⟩] := by
  decide

/-- Claim C4, amended: at most one ownership row exists per (user, card)
pair — creating a row for an already-owned card fails on the unique
index, every successful create and every pack purchase preserve the
pairwise-distinct invariant — and an acquisition of an already-owned card
does NOT increment the existing row's counters: its transaction fails and
the route rolls the database back unchanged. -/
theorem ownership_rows_unique :
    (∀ (db : DBState) (uid sc : Nat),
      (∃ r ∈ db.userStyles, r.userId = uid ∧ r.styleCardId = sc) →
      ∃ e, userStyleCreate db uid sc = .error e) ∧
    (∀ (db db' : DBState) (uid sc : Nat),
      UniquePairs db.userStyles → userStyleCreate db uid sc = .ok db' →
      UniquePairs db'.userStyles) ∧
    (∀ (userId : Nat) (packType : String) (q : Int)
       (pool : Rarity → List StyleCard) (pick : Nat → Nat → Nat)
       (db : DBState) (r : HttpResult) (db' : DBState),
      postPackPurchase userId packType q pool pick db = (r, db') →
      UniquePairs db.userStyles → UniquePairs db'.userStyles) ∧
    (∀ (userId : Nat) (packType : String) (q : Int)
       (pool : Rarity → List StyleCard) (pick : Nat → Nat → Nat)
       (db : DBState) (r : HttpResult) (db' : DBState),
      postPackPurchase userId packType q pool pick db = (r, db') →
      r ≠ .ok200 → db' = db) := by
  refine ⟨?_, ?_, ?_, ?_⟩
  · intro db uid sc hex
    exact ⟨_, userStyleCreate_exists hex⟩
  · intro db db' uid sc hu h
    exact userStyleCreate_uniquePairs hu h
  · intro userId packType q pool pick db r db' h hu
    unfold postPackPurchase at h
    split at h
    case isFalse =>
      cases h
      exact hu
    case isTrue hguard =>
      split at h
      next cfg2 hlk =>
        split at h
        next db2 heq =>
          cases h
          exact purchaseTx_uniquePairs heq hu
        next e heq =>
          cases h
          exact hu
      next hlk =>
        cases h
        exact hu
  · intro userId packType q pool pick db r db' h hne
    unfold postPackPurchase at h
    split at h
    case isFalse =>
      cases h
      rfl
    case isTrue hguard =>
      split at h
      next cfg2 hlk =>
        split at h
        next db2 heq =>
          cases h
          exact absurd rfl hne
        next e heq =>
          cases h
          rfl
      next hlk =>
        cases h
        rfl

/-- Witness for the amended C4: the duplicate create on `dbC4` errors;
the successful STARTER purchase on `dbW` keeps the ledger
pairwise-distinct; the failed duplicate purchase leaves `dbC4`
unchanged. -/
theorem ownership_rows_unique_witness :
    (∃ r ∈ dbC4.userStyles, r.userId = 1 ∧ r.styleCardId = 7) ∧
    (∃ e, userStyleCreate dbC4 1 7 = .error e) ∧
    (UniquePairs dbW.userStyles ∧
     UniquePairs
       (⟨[⟨1, "PACK_PURCHASE", 999, "1x Starter Pack", "COMPLETED"⟩],
         [⟨1, 1, 0, 0, 0⟩, ⟨1, 2, 0, 0, 0⟩, ⟨1, 3, 0, 0, 0⟩,
          ⟨1, 4, 0, 0, 0⟩, ⟨1, 5, 0, 0, 0⟩],
         [(1, 1)], []⟩ : DBState).userStyles) ∧
    ((.serverError
        "Unique index violation on user_styles (userId, styleCardId)"
        : HttpResult) ≠ .ok200 ∧ dbC4 = dbC4) :=
  ⟨by decide,
   ownership_rows_unique.1 dbC4 1 7 (by decide),
   ⟨by unfold UniquePairs; decide,
    ownership_rows_unique.2.2.1 1 "STARTER" 1 pool5 pickId dbW .ok200
      ⟨[⟨1, "PACK_PURCHASE", 999, "1x Starter Pack", "COMPLETED"⟩],
       [⟨1, 1, 0, 0, 0⟩, ⟨1, 2, 0, 0, 0⟩, ⟨1, 3, 0, 0, 0⟩,
        ⟨1, 4, 0, 0, 0⟩, ⟨1, 5, 0, 0, 0⟩],
       [(1, 1)], []⟩ (by decide) (by unfold UniquePairs; decide)⟩,
   ⟨by decide,
    ownership_rows_unique.2.2.2 1 "STARTER" 1 poolOnly7 pickZero dbC4
      (.serverError
        "Unique index violation on user_styles (userId, styleCardId)")
      dbC4 (by decide) (by decide)⟩⟩

end Jogata
